import Mathlib

/-!
Verification of the tic-tac-toe game core.

Shallow embedding of `src/tic_tac_toe.rs`: the board, win detection, cursor
navigation, move application, and the session state machine (`Game`,
`input_space`). Rust panics (array indexing out of bounds, the `unreachable!()`
branch for the `Borrowed` placeholder state) are modelled by `Option`-valued
results, with `none` standing for a panic.
-/

namespace TicTacToe

/-- The two players, `enum Player { X, O }`. -/
inductive Player
  | X
  | O
deriving DecidableEq

/-- Rust `Player::toggle`: swap `X` and `O` (modelled functionally). -/
def Player.toggle : Player → Player
  | Player.X => Player.O
  | Player.O => Player.X

/-- Rust `type Square = Option<Player>`. -/
abbrev Square := Option Player

/-- Rust `struct Board { squares: [Square; 9] }`: a fixed array of 9 squares,
row-major (0,1,2 top row; 3,4,5 middle; 6,7,8 bottom). -/
structure Board where
  squares : Fin 9 → Square

instance : DecidableEq Board := fun a b =>
  decidable_of_iff (a.squares = b.squares) (by cases a; cases b; simp)

/-- Rust `Board::new`: all squares empty. -/
def Board.new : Board := ⟨fun _ => none⟩

/-- Rust `enum Win`: the eight winning lines. -/
inductive Win
  | LeftCol
  | MidCol
  | RightCol
  | TopRow
  | MidRow
  | BottomRow
  | TLBRDiag
  | TRBLDiag
deriving DecidableEq

/-- Rust `Board::check_win`: early-return chain translated with `Option.orElse`.
Center cell (4) chunk first, then the top-left cell (0) chunk, then the
bottom-right cell (8) chunk. -/
def Board.check_win (b : Board) : Option (Win × Player) :=
  (match b.squares 4 with
   | some player =>
     if b.squares 1 = some player ∧ b.squares 7 = some player then
       some (Win.MidCol, player)
     else if b.squares 3 = some player ∧ b.squares 5 = some player then
       some (Win.MidRow, player)
     else if b.squares 0 = some player ∧ b.squares 8 = some player then
       some (Win.TLBRDiag, player)
     else if b.squares 2 = some player ∧ b.squares 6 = some player then
       some (Win.TRBLDiag, player)
     else none
   | none => none).orElse fun _ =>
  (match b.squares 0 with
   | some player =>
     if b.squares 1 = some player ∧ b.squares 2 = some player then
       some (Win.TopRow, player)
     else if b.squares 3 = some player ∧ b.squares 6 = some player then
       some (Win.LeftCol, player)
     else none
   | none => none).orElse fun _ =>
  (match b.squares 8 with
   | some player =>
     if b.squares 6 = some player ∧ b.squares 7 = some player then
       some (Win.BottomRow, player)
     else if b.squares 2 = some player ∧ b.squares 5 = some player then
       some (Win.RightCol, player)
     else none
   | none => none)

/-- Rust `Board::is_full`: `self.squares.iter().all(|sq| sq.is_some())`. -/
def Board.is_full (b : Board) : Bool :=
  (List.finRange 9).all fun i => (b.squares i).isSome

/-- Rust `struct Playing { board, cursor_pos, next }`; the source documents the
invariant `0 <= cursor_pos < 9` but stores a `usize`, modelled as `Nat`. -/
structure Playing where
  board : Board
  cursor_pos : Nat
  next : Player
deriving DecidableEq

/-- Rust `Playing::new(first_player)`. -/
def Playing.new (first_player : Player) : Playing :=
  { cursor_pos := 0, next := first_player, board := Board.new }

/-- Rust `Playing::cursor_left`. -/
def Playing.cursor_left (p : Playing) : Playing :=
  { p with cursor_pos := p.cursor_pos / 3 * 3 + (p.cursor_pos + 2) % 3 }

/-- Rust `Playing::cursor_right`. -/
def Playing.cursor_right (p : Playing) : Playing :=
  { p with cursor_pos := p.cursor_pos / 3 * 3 + (p.cursor_pos + 1) % 3 }

/-- Rust `Playing::cursor_up`. -/
def Playing.cursor_up (p : Playing) : Playing :=
  { p with cursor_pos := (p.cursor_pos + 6) % 9 }

/-- Rust `Playing::cursor_down`. -/
def Playing.cursor_down (p : Playing) : Playing :=
  { p with cursor_pos := (p.cursor_pos + 3) % 9 }

/-- Rust `Playing::make_move`: index `squares[cursor_pos]` (a panic when
`cursor_pos >= 9`, modelled as `none`); occupied square is a no-op; otherwise
mark the square with `next` and toggle `next`. -/
def Playing.make_move (p : Playing) : Option Playing :=
  if h : p.cursor_pos < 9 then
    if (p.board.squares ⟨p.cursor_pos, h⟩).isSome then
      some p
    else
      some { p with
        board := ⟨Function.update p.board.squares ⟨p.cursor_pos, h⟩ (some p.next)⟩,
        next := p.next.toggle }
  else
    none

/-- Rust `struct Done { board, win }`. -/
structure Done where
  board : Board
  win : Option (Win × Player)
deriving DecidableEq

/-- Rust `enum State { Borrowed, Playing(Playing), Done(Done) }`. -/
inductive State
  | Borrowed
  | Playing (p : TicTacToe.Playing)
  | Done (d : TicTacToe.Done)
deriving DecidableEq

/-- Rust `struct Game { state, player_first, score_x, score_o }`. -/
structure Game where
  state : State
  player_first : Player
  score_x : Nat
  score_o : Nat
deriving DecidableEq

/-- Rust `Game::new`. -/
def Game.new : Game :=
  { state := State.Playing { cursor_pos := 0, board := Board.new, next := Player.X },
    score_x := 0,
    score_o := 0,
    player_first := Player.X }

/-- Rust `Game::input_left`: move the cursor if playing, else no effect. -/
def Game.input_left (g : Game) : Game :=
  match g.state with
  | State.Playing p => { g with state := State.Playing p.cursor_left }
  | _ => g

/-- Rust `Game::input_right`. -/
def Game.input_right (g : Game) : Game :=
  match g.state with
  | State.Playing p => { g with state := State.Playing p.cursor_right }
  | _ => g

/-- Rust `Game::input_up`. -/
def Game.input_up (g : Game) : Game :=
  match g.state with
  | State.Playing p => { g with state := State.Playing p.cursor_up }
  | _ => g

/-- Rust `Game::input_down`. -/
def Game.input_down (g : Game) : Game :=
  match g.state with
  | State.Playing p => { g with state := State.Playing p.cursor_down }
  | _ => g

/-- Rust `Game::input_space`: the confirm action. The source borrows the state out
(leaving `Borrowed`) and moves the result back in; functionally this is a match
on the current state computing the next one. `none` models a panic: the
`unreachable!()` branch for `Borrowed`, or an out-of-bounds cursor inside
`make_move`. -/
def Game.input_space (g : Game) : Option Game :=
  match g.state with
  | State.Playing playing =>
    match playing.make_move with
    | none => none
    | some playing =>
      match playing.board.check_win with
      | some (win_line, player) =>
        match player with
        | Player.O =>
          some { g with
            state := State.Done { board := playing.board, win := some (win_line, player) },
            score_o := g.score_o + 1 }
        | Player.X =>
          some { g with
            state := State.Done { board := playing.board, win := some (win_line, player) },
            score_x := g.score_x + 1 }
      | none =>
        if playing.board.is_full then
          some { g with state := State.Done { board := playing.board, win := none } }
        else
          some { g with state := State.Playing playing }
  | State.Done _ =>
    some { g with
      player_first := g.player_first.toggle,
      state := State.Playing (Playing.new g.player_first.toggle) }
  | State.Borrowed => none

/-- The input events the game core reacts to (`handle_events` key dispatch). -/
inductive Input
  | left
  | right
  | up
  | down
  | space
deriving DecidableEq

/-- One event dispatch. Navigation never fails; `space` may (theoretically)
panic, modelled by `Option`. -/
def Game.step (g : Game) : Input → Option Game
  | Input.left => some g.input_left
  | Input.right => some g.input_right
  | Input.up => some g.input_up
  | Input.down => some g.input_down
  | Input.space => g.input_space

/-- Run a list of input events from a game state. -/
def Game.steps (g : Game) : List Input → Option Game
  | [] => some g
  | i :: rest =>
    match g.step i with
    | none => none
    | some g' => g'.steps rest

/-- States reachable from the fresh game by any sequence of input events. -/
inductive Reachable : Game → Prop
  | init : Reachable Game.new
  | step : ∀ {g g' : Game} {i : Input}, Reachable g → g.step i = some g' → Reachable g'

/-- The index triple of each winning line, as listed in the spec. -/
def Win.cells : Win → List (Fin 9)
  | Win.TopRow => [0, 1, 2]
  | Win.MidRow => [3, 4, 5]
  | Win.BottomRow => [6, 7, 8]
  | Win.LeftCol => [0, 3, 6]
  | Win.MidCol => [1, 4, 7]
  | Win.RightCol => [2, 5, 8]
  | Win.TLBRDiag => [0, 4, 8]
  | Win.TRBLDiag => [2, 4, 6]

/-- A board whose squares are exactly one winning triple, occupied by one
player. -/
def lineBoard (w : Win) (pl : Player) : Board :=
  ⟨fun i => if i ∈ w.cells then some pl else none⟩

/-- Modelled from the spec: the fixed priority order of winning lines, each as
(variant, guard cell, other two cells): center-column (1,4,7), center-row
(3,4,5), TL-BR diagonal (0,4,8), TR-BL diagonal (2,4,6) — guarded by cell 4
being occupied — then top-row (0,1,2), left-column (0,3,6) — guarded by
cell 0 — then bottom-row (6,7,8), right-column (2,5,8) — guarded by cell 8. -/
def specOrder : List (Win × Fin 9 × Fin 9 × Fin 9) :=
  [(Win.MidCol, 4, 1, 7), (Win.MidRow, 4, 3, 5),
   (Win.TLBRDiag, 4, 0, 8), (Win.TRBLDiag, 4, 2, 6),
   (Win.TopRow, 0, 1, 2), (Win.LeftCol, 0, 3, 6),
   (Win.BottomRow, 8, 6, 7), (Win.RightCol, 8, 2, 5)]

/-- Modelled from the spec: a line wins when its guard cell is occupied by a
player and the other two cells of the triple hold the same player. -/
def lineWin (b : Board) : Win × Fin 9 × Fin 9 × Fin 9 → Option (Win × Player) :=
  fun wl =>
    match b.squares wl.2.1 with
    | some player =>
      if b.squares wl.2.2.1 = some player ∧ b.squares wl.2.2.2 = some player then
        some (wl.1, player)
      else none
    | none => none

/-- Modelled from the spec: `check_win` as "the first winning line found under
the fixed priority order". -/
def check_win_spec (b : Board) : Option (Win × Player) :=
  specOrder.findSome? (lineWin b)

/-- The state invariant maintained by event dispatch: never the `Borrowed`
placeholder, and while playing the cursor is in bounds and the board has
neither a winning line nor is full. -/
def GoodState : State → Prop
  | State.Borrowed => False
  | State.Playing p => p.cursor_pos < 9 ∧ p.board.check_win = none ∧ p.board.is_full = false
  | State.Done _ => True

end TicTacToe

namespace TicTacToe

set_option maxHeartbeats 1000000 in
/-- Equivalence: `check_win` agrees with the spec's priority-ordered first-match description
on every board. -/
theorem check_win_eq_spec (b : Board) : b.check_win = check_win_spec b := by
  unfold Board.check_win check_win_spec
  rcases h4 : b.squares 4 with _ | p4 <;>
    rcases h0 : b.squares 0 with _ | p0 <;>
      rcases h8 : b.squares 8 with _ | p8 <;>
        simp only [specOrder, lineWin, List.findSome?_cons, List.findSome?_nil, h4, h0, h8,
          Option.some_orElse', Option.none_orElse'] <;>
        split_ifs <;> simp_all

/-- The empty board has no winning line. -/
theorem new_board_no_win : Board.new.check_win = none := rfl

/-- The empty board is not full. -/
theorem new_board_not_full : Board.new.is_full = false := rfl

/-- The initial game state satisfies the state invariant. -/
theorem good_new : GoodState Game.new.state :=
  ⟨by norm_num, rfl, rfl⟩

/-- Lemma: `input_left` preserves the state invariant. -/
theorem good_input_left {g : Game} (hg : GoodState g.state) :
    GoodState g.input_left.state := by
  unfold Game.input_left
  cases hs : g.state with
  | Borrowed => exact hg
  | Done d => exact hg
  | Playing p =>
    rw [hs] at hg
    obtain ⟨h9, hw, hf⟩ := hg
    refine ⟨?_, hw, hf⟩
    show p.cursor_pos / 3 * 3 + (p.cursor_pos + 2) % 3 < 9
    omega

/-- Lemma: `input_right` preserves the state invariant. -/
theorem good_input_right {g : Game} (hg : GoodState g.state) :
    GoodState g.input_right.state := by
  unfold Game.input_right
  cases hs : g.state with
  | Borrowed => exact hg
  | Done d => exact hg
  | Playing p =>
    rw [hs] at hg
    obtain ⟨h9, hw, hf⟩ := hg
    refine ⟨?_, hw, hf⟩
    show p.cursor_pos / 3 * 3 + (p.cursor_pos + 1) % 3 < 9
    omega

/-- Lemma: `input_up` preserves the state invariant. -/
theorem good_input_up {g : Game} (hg : GoodState g.state) :
    GoodState g.input_up.state := by
  unfold Game.input_up
  cases hs : g.state with
  | Borrowed => exact hg
  | Done d => exact hg
  | Playing p =>
    rw [hs] at hg
    obtain ⟨h9, hw, hf⟩ := hg
    refine ⟨?_, hw, hf⟩
    show (p.cursor_pos + 6) % 9 < 9
    omega

/-- Lemma: `input_down` preserves the state invariant. -/
theorem good_input_down {g : Game} (hg : GoodState g.state) :
    GoodState g.input_down.state := by
  unfold Game.input_down
  cases hs : g.state with
  | Borrowed => exact hg
  | Done d => exact hg
  | Playing p =>
    rw [hs] at hg
    obtain ⟨h9, hw, hf⟩ := hg
    refine ⟨?_, hw, hf⟩
    show (p.cursor_pos + 3) % 9 < 9
    omega

/-- Lemma: `input_space` preserves the state invariant. -/
theorem good_input_space {g g' : Game} (hg : GoodState g.state)
    (h : g.input_space = some g') : GoodState g'.state := by
  unfold Game.input_space at h
  cases hs : g.state with
  | Borrowed => rw [hs] at hg; exact hg.elim
  | Done d =>
    rw [hs] at h
    obtain rfl : _ = g' := Option.some.inj h
    exact ⟨by simp [Playing.new], rfl, rfl⟩
  | Playing p =>
    rw [hs] at h hg
    simp only [] at h
    obtain ⟨h9, hw, hf⟩ := hg
    unfold Playing.make_move at h
    rw [dif_pos h9] at h
    by_cases hocc : (p.board.squares ⟨p.cursor_pos, h9⟩).isSome = true
    · rw [if_pos hocc] at h
      simp only [hw, hf] at h
      obtain rfl : _ = g' := Option.some.inj h
      exact ⟨h9, hw, hf⟩
    · rw [if_neg hocc] at h
      cases hcw : (Board.mk (Function.update p.board.squares ⟨p.cursor_pos, h9⟩ (some p.next))).check_win with
      | some wp =>
        obtain ⟨w, pl⟩ := wp
        simp only [hcw] at h
        cases pl with
        | X => obtain rfl : _ = g' := Option.some.inj h; trivial
        | O => obtain rfl : _ = g' := Option.some.inj h; trivial
      | none =>
        simp only [hcw] at h
        by_cases hfull : (Board.mk (Function.update p.board.squares ⟨p.cursor_pos, h9⟩ (some p.next))).is_full = true
        · rw [if_pos hfull] at h
          obtain rfl : _ = g' := Option.some.inj h
          trivial
        · rw [if_neg hfull] at h
          obtain rfl : _ = g' := Option.some.inj h
          exact ⟨h9, hcw, by simpa using hfull⟩

/-- Every event dispatch preserves the state invariant. -/
theorem good_step {g g' : Game} {i : Input} (hg : GoodState g.state)
    (h : g.step i = some g') : GoodState g'.state := by
  cases i with
  | left => obtain rfl : _ = g' := Option.some.inj h; exact good_input_left hg
  | right => obtain rfl : _ = g' := Option.some.inj h; exact good_input_right hg
  | up => obtain rfl : _ = g' := Option.some.inj h; exact good_input_up hg
  | down => obtain rfl : _ = g' := Option.some.inj h; exact good_input_down hg
  | space => exact good_input_space hg h

/-- Every reachable game state satisfies the state invariant. -/
theorem reachable_good {g : Game} (h : Reachable g) : GoodState g.state := by
  induction h with
  | init => exact good_new
  | step hr hstep ih => exact good_step ih hstep

end TicTacToe

namespace TicTacToe

/-- C1: `check_win` returns the first winning line under the fixed priority
order (center-column, center-row, the two diagonals — guarded by cell 4 —
then top-row, left-column — guarded by cell 0 — then bottom-row,
right-column — guarded by cell 8); each of the 8 variants is returned for a
board holding exactly its triple, and a board with both a center-row and a
center-column win yields the center-column result. -/
theorem claim_C1_check_win_priority :
    (∀ b : Board, b.check_win = check_win_spec b) ∧
    (∀ (w : Win) (pl : Player), (lineBoard w pl).check_win = some (w, pl)) ∧
    (Board.mk fun i =>
        if i ∈ ([1, 3, 4, 5, 7] : List (Fin 9)) then some Player.X else none).check_win
      = some (Win.MidCol, Player.X) := by
  refine ⟨check_win_eq_spec, ?_, ?_⟩
  · intro w pl
    cases w <;> cases pl <;> decide
  · decide

/-- C4: confirming in a Finished state toggles `player_first` and starts a new
round with a fresh board, cursor 0, and the toggled player to move; the
starting player therefore alternates between consecutive rounds. -/
theorem claim_C4_rematch (g : Game) (d : Done) (hs : g.state = State.Done d) :
    g.input_space = some { g with
      player_first := g.player_first.toggle,
      state := State.Playing
        { board := Board.new, cursor_pos := 0, next := g.player_first.toggle } } ∧
    g.player_first.toggle ≠ g.player_first := by
  constructor
  · unfold Game.input_space
    rw [hs]
    rfl
  · cases g.player_first <;> simp [Player.toggle]

/-- Witness for C4 at a concrete finished game. -/
theorem claim_C4_witness :
    ({ state := State.Done { board := Board.new, win := none },
       player_first := Player.X, score_x := 0, score_o := 0 } : Game).input_space
      = some { state := State.Playing
                 { board := Board.new, cursor_pos := 0, next := Player.X.toggle },
               player_first := Player.X.toggle, score_x := 0, score_o := 0 } ∧
    Player.X.toggle ≠ Player.X :=
  claim_C4_rematch _ _ rfl

/-- C8: in every reachable Playing state the cursor index is below 9, so
`make_move` indexes in bounds and never panics. -/
theorem claim_C8_cursor_in_bounds (g : Game) (p : Playing) (hr : Reachable g)
    (hs : g.state = State.Playing p) :
    p.cursor_pos < 9 ∧ p.make_move.isSome = true := by
  have hgood := reachable_good hr
  rw [hs] at hgood
  obtain ⟨h9, -, -⟩ := hgood
  refine ⟨h9, ?_⟩
  unfold Playing.make_move
  rw [dif_pos h9]
  by_cases hocc : (p.board.squares ⟨p.cursor_pos, h9⟩).isSome = true
  · rw [if_pos hocc]; rfl
  · rw [if_neg hocc]; rfl

/-- Witness for C8 at the initial game. -/
theorem claim_C8_witness :
    ({ board := Board.new, cursor_pos := 0, next := Player.X } : Playing).cursor_pos < 9 ∧
    ({ board := Board.new, cursor_pos := 0, next := Player.X } : Playing).make_move.isSome = true :=
  claim_C8_cursor_in_bounds Game.new _ Reachable.init rfl

/-- C10: in every reachable Playing state the board has no winning line and is
not full. -/
theorem claim_C10_playing_board_open (g : Game) (p : Playing) (hr : Reachable g)
    (hs : g.state = State.Playing p) :
    p.board.check_win = none ∧ p.board.is_full = false := by
  have hgood := reachable_good hr
  rw [hs] at hgood
  exact ⟨hgood.2.1, hgood.2.2⟩

/-- Witness for C10 at the initial game. -/
theorem claim_C10_witness :
    Board.new.check_win = none ∧ Board.new.is_full = false :=
  claim_C10_playing_board_open Game.new _ Reachable.init rfl

end TicTacToe

namespace TicTacToe

/-- C2: confirming on an empty cursored cell marks the cell, toggles the
player to move, and then: a win moves to Finished with that outcome and bumps
the winner's score by one; a full board moves to Finished as a draw with no
score change; otherwise play continues with the updated board and turn. -/
theorem claim_C2_confirm_empty (g : Game) (p : Playing)
    (hs : g.state = State.Playing p) (h9 : p.cursor_pos < 9)
    (he : p.board.squares ⟨p.cursor_pos, h9⟩ = none) :
    (∀ (w : Win) (pl : Player),
      (Board.mk (Function.update p.board.squares ⟨p.cursor_pos, h9⟩ (some p.next))).check_win
          = some (w, pl) →
      g.input_space = some { g with
        state := State.Done
          { board := Board.mk (Function.update p.board.squares ⟨p.cursor_pos, h9⟩ (some p.next)),
            win := some (w, pl) },
        score_x := if pl = Player.X then g.score_x + 1 else g.score_x,
        score_o := if pl = Player.O then g.score_o + 1 else g.score_o }) ∧
    ((Board.mk (Function.update p.board.squares ⟨p.cursor_pos, h9⟩ (some p.next))).check_win = none →
      (Board.mk (Function.update p.board.squares ⟨p.cursor_pos, h9⟩ (some p.next))).is_full = true →
      g.input_space = some { g with
        state := State.Done
          { board := Board.mk (Function.update p.board.squares ⟨p.cursor_pos, h9⟩ (some p.next)),
            win := none } }) ∧
    ((Board.mk (Function.update p.board.squares ⟨p.cursor_pos, h9⟩ (some p.next))).check_win = none →
      (Board.mk (Function.update p.board.squares ⟨p.cursor_pos, h9⟩ (some p.next))).is_full = false →
      g.input_space = some { g with
        state := State.Playing
          { board := Board.mk (Function.update p.board.squares ⟨p.cursor_pos, h9⟩ (some p.next)),
            cursor_pos := p.cursor_pos,
            next := p.next.toggle } }) := by
  have hocc : (p.board.squares ⟨p.cursor_pos, h9⟩).isSome = false := by
    rw [he]; rfl
  have hmm : p.make_move = some
      { p with
        board := Board.mk (Function.update p.board.squares ⟨p.cursor_pos, h9⟩ (some p.next)),
        next := p.next.toggle } := by
    unfold Playing.make_move
    rw [dif_pos h9, hocc]
    rfl
  refine ⟨?_, ?_, ?_⟩
  · intro w pl hw
    unfold Game.input_space
    rw [hs]
    simp only []
    rw [hmm]
    simp only []
    rw [hw]
    cases pl <;> simp
  · intro hw hfull
    unfold Game.input_space
    rw [hs]
    simp only []
    rw [hmm]
    simp only []
    rw [hw]
    simp only [hfull]
    rfl
  · intro hw hfull
    unfold Game.input_space
    rw [hs]
    simp only []
    rw [hmm]
    simp only []
    rw [hw]
    simp only [hfull]
    rfl

/-- C3: in a reachable Playing state, confirming on an occupied cell is a
silent no-op: the whole game state is unchanged and no panic occurs. -/
theorem claim_C3_confirm_occupied_noop (g : Game) (p : Playing) (hr : Reachable g)
    (hs : g.state = State.Playing p) (h9 : p.cursor_pos < 9)
    (hocc : (p.board.squares ⟨p.cursor_pos, h9⟩).isSome = true) :
    g.input_space = some g := by
  have hgood := reachable_good hr
  rw [hs] at hgood
  obtain ⟨-, hw, hf⟩ := hgood
  have hmm : p.make_move = some p := by
    unfold Playing.make_move
    rw [dif_pos h9, if_pos hocc]
  unfold Game.input_space
  rw [hs]
  simp only []
  rw [hmm]
  simp only []
  rw [hw]
  simp only [hf]
  rw [← hs]
  rfl

end TicTacToe

namespace TicTacToe

/-- Witness for C2: the first move of a fresh game marks cell 0 with X and
play continues. -/
theorem claim_C2_witness :
    Game.new.input_space = some { Game.new with
      state := State.Playing
        { board := Board.mk (Function.update Board.new.squares ⟨0, by norm_num⟩ (some Player.X)),
          cursor_pos := 0,
          next := Player.X.toggle } } :=
  (claim_C2_confirm_empty Game.new { board := Board.new, cursor_pos := 0, next := Player.X }
    rfl (by norm_num) rfl).2.2 (by decide) (by decide)

/-- Witness for C3: after X takes cell 0, confirming again on cell 0 changes
nothing. -/
theorem claim_C3_witness :
    ({ state := State.Playing
         { board := Board.mk (Function.update Board.new.squares ⟨0, by norm_num⟩ (some Player.X)),
           cursor_pos := 0, next := Player.O },
       player_first := Player.X, score_x := 0, score_o := 0 } : Game).input_space
      = some { state := State.Playing
                 { board := Board.mk (Function.update Board.new.squares ⟨0, by norm_num⟩ (some Player.X)),
                   cursor_pos := 0, next := Player.O },
               player_first := Player.X, score_x := 0, score_o := 0 } := by
  have hstep : Game.new.step Input.space = some
      { state := State.Playing
          { board := Board.mk (Function.update Board.new.squares ⟨0, by norm_num⟩ (some Player.X)),
            cursor_pos := 0, next := Player.O },
        player_first := Player.X, score_x := 0, score_o := 0 } := by
    decide
  exact claim_C3_confirm_occupied_noop _ _ (Reachable.step Reachable.init hstep) rfl
    (by norm_num) (by decide)

end TicTacToe

namespace TicTacToe

/-- C5: the cursor moves treat the grid as a 3x3 torus (left/right stay in the
row, up/down shift by 3 modulo 9 and stay in the column), opposite moves are
mutually inverse, each direction is a bijection on the 9 positions, and no
cursor move touches the board or the player to move. -/
theorem claim_C5_cursor_torus :
    (∀ p : Playing, p.cursor_pos < 9 →
      (p.cursor_left.cursor_pos < 9 ∧
       p.cursor_left.cursor_pos / 3 = p.cursor_pos / 3 ∧
       p.cursor_right.cursor_pos < 9 ∧
       p.cursor_right.cursor_pos / 3 = p.cursor_pos / 3 ∧
       p.cursor_up.cursor_pos = (p.cursor_pos + 6) % 9 ∧
       p.cursor_up.cursor_pos % 3 = p.cursor_pos % 3 ∧
       p.cursor_down.cursor_pos = (p.cursor_pos + 3) % 9 ∧
       p.cursor_down.cursor_pos % 3 = p.cursor_pos % 3 ∧
       p.cursor_left.cursor_right.cursor_pos = p.cursor_pos ∧
       p.cursor_right.cursor_left.cursor_pos = p.cursor_pos ∧
       p.cursor_up.cursor_down.cursor_pos = p.cursor_pos ∧
       p.cursor_down.cursor_up.cursor_pos = p.cursor_pos)) ∧
    Set.BijOn
      (fun c : Nat =>
        (Playing.cursor_left { board := Board.new, cursor_pos := c, next := Player.X }).cursor_pos)
      {c : Nat | c < 9} {c : Nat | c < 9} ∧
    Set.BijOn
      (fun c : Nat =>
        (Playing.cursor_right { board := Board.new, cursor_pos := c, next := Player.X }).cursor_pos)
      {c : Nat | c < 9} {c : Nat | c < 9} ∧
    Set.BijOn
      (fun c : Nat =>
        (Playing.cursor_up { board := Board.new, cursor_pos := c, next := Player.X }).cursor_pos)
      {c : Nat | c < 9} {c : Nat | c < 9} ∧
    Set.BijOn
      (fun c : Nat =>
        (Playing.cursor_down { board := Board.new, cursor_pos := c, next := Player.X }).cursor_pos)
      {c : Nat | c < 9} {c : Nat | c < 9} ∧
    (∀ p : Playing,
      p.cursor_left.board = p.board ∧ p.cursor_right.board = p.board ∧
      p.cursor_up.board = p.board ∧ p.cursor_down.board = p.board ∧
      p.cursor_left.next = p.next ∧ p.cursor_right.next = p.next ∧
      p.cursor_up.next = p.next ∧ p.cursor_down.next = p.next) := by
  refine ⟨?_, ?_, ?_, ?_, ?_, ?_⟩
  · intro p hp
    simp only [Playing.cursor_left, Playing.cursor_right, Playing.cursor_up, Playing.cursor_down,
      and_true, true_and]
    omega
  · simp only [Set.BijOn, Set.MapsTo, Set.InjOn, Set.SurjOn, Set.subset_def, Set.mem_setOf_eq,
      Set.mem_image, Playing.cursor_left]
    refine ⟨?_, ?_, ?_⟩ <;> decide
  · simp only [Set.BijOn, Set.MapsTo, Set.InjOn, Set.SurjOn, Set.subset_def, Set.mem_setOf_eq,
      Set.mem_image, Playing.cursor_right]
    refine ⟨?_, ?_, ?_⟩ <;> decide
  · simp only [Set.BijOn, Set.MapsTo, Set.InjOn, Set.SurjOn, Set.subset_def, Set.mem_setOf_eq,
      Set.mem_image, Playing.cursor_up]
    refine ⟨?_, ?_, ?_⟩ <;> decide
  · simp only [Set.BijOn, Set.MapsTo, Set.InjOn, Set.SurjOn, Set.subset_def, Set.mem_setOf_eq,
      Set.mem_image, Playing.cursor_down]
    refine ⟨?_, ?_, ?_⟩ <;> decide
  · intro p
    exact ⟨rfl, rfl, rfl, rfl, rfl, rfl, rfl, rfl⟩

/-- Witness for C5 at cursor position 4. -/
theorem claim_C5_witness :
    ({ board := Board.new, cursor_pos := 4, next := Player.X } : Playing).cursor_left.cursor_pos < 9 ∧
    ({ board := Board.new, cursor_pos := 4, next := Player.X } : Playing).cursor_left.cursor_pos / 3
        = ({ board := Board.new, cursor_pos := 4, next := Player.X } : Playing).cursor_pos / 3 ∧
    ({ board := Board.new, cursor_pos := 4, next := Player.X } : Playing).cursor_right.cursor_pos < 9 ∧
    ({ board := Board.new, cursor_pos := 4, next := Player.X } : Playing).cursor_right.cursor_pos / 3
        = ({ board := Board.new, cursor_pos := 4, next := Player.X } : Playing).cursor_pos / 3 ∧
    ({ board := Board.new, cursor_pos := 4, next := Player.X } : Playing).cursor_up.cursor_pos = (4 + 6) % 9 ∧
    ({ board := Board.new, cursor_pos := 4, next := Player.X } : Playing).cursor_up.cursor_pos % 3 = 4 % 3 ∧
    ({ board := Board.new, cursor_pos := 4, next := Player.X } : Playing).cursor_down.cursor_pos = (4 + 3) % 9 ∧
    ({ board := Board.new, cursor_pos := 4, next := Player.X } : Playing).cursor_down.cursor_pos % 3 = 4 % 3 ∧
    ({ board := Board.new, cursor_pos := 4, next := Player.X } : Playing).cursor_left.cursor_right.cursor_pos = 4 ∧
    ({ board := Board.new, cursor_pos := 4, next := Player.X } : Playing).cursor_right.cursor_left.cursor_pos = 4 ∧
    ({ board := Board.new, cursor_pos := 4, next := Player.X } : Playing).cursor_up.cursor_down.cursor_pos = 4 ∧
    ({ board := Board.new, cursor_pos := 4, next := Player.X } : Playing).cursor_down.cursor_up.cursor_pos = 4 :=
  claim_C5_cursor_torus.1 { board := Board.new, cursor_pos := 4, next := Player.X } (by norm_num)

end TicTacToe

namespace TicTacToe

/-- C6: from a fresh game, X plays 4, O plays 0, X plays 1, O plays 2, X plays
7 (realized by cursor navigation plus confirm); the round finishes with a
center-column win for X and the score becomes X 1, O 0. -/
theorem claim_C6_midcol_scenario :
    ((Game.steps Game.new
        [Input.down, Input.right, Input.space, Input.up, Input.left, Input.space,
         Input.right, Input.space, Input.right, Input.space,
         Input.down, Input.down, Input.left, Input.space]).map
      fun g => (g.score_x, g.score_o)) = some (1, 0) ∧
    ((Game.steps Game.new
        [Input.down, Input.right, Input.space, Input.up, Input.left, Input.space,
         Input.right, Input.space, Input.right, Input.space,
         Input.down, Input.down, Input.left, Input.space]).bind
      fun g => match g.state with | State.Done d => d.win | _ => none)
      = some (Win.MidCol, Player.X) := by
  exact ⟨by decide, by decide⟩

/-- C7: scores never decrease under any event, and they change only when a
confirm produces a win, in which case exactly the winner's counter grows by
one. -/
theorem claim_C7_scores_monotone (g g' : Game) (i : Input) (h : g.step i = some g') :
    g.score_x ≤ g'.score_x ∧ g.score_o ≤ g'.score_o ∧
    ((g'.score_x, g'.score_o) ≠ (g.score_x, g.score_o) →
      i = Input.space ∧ ∃ d : Done, g'.state = State.Done d ∧
        ∃ (w : Win) (pl : Player), d.win = some (w, pl) ∧
          ((pl = Player.X ∧ g'.score_x = g.score_x + 1 ∧ g'.score_o = g.score_o) ∨
           (pl = Player.O ∧ g'.score_o = g.score_o + 1 ∧ g'.score_x = g.score_x))) := by
  cases i with
  | left =>
    obtain rfl : _ = g' := Option.some.inj h
    unfold Game.input_left
    cases hs : g.state <;> simp
  | right =>
    obtain rfl : _ = g' := Option.some.inj h
    unfold Game.input_right
    cases hs : g.state <;> simp
  | up =>
    obtain rfl : _ = g' := Option.some.inj h
    unfold Game.input_up
    cases hs : g.state <;> simp
  | down =>
    obtain rfl : _ = g' := Option.some.inj h
    unfold Game.input_down
    cases hs : g.state <;> simp
  | space =>
    have h' : g.input_space = some g' := h
    unfold Game.input_space at h'
    cases hs : g.state with
    | Borrowed => rw [hs] at h'; exact absurd h' (by simp)
    | Done d =>
      rw [hs] at h'
      obtain rfl : _ = g' := Option.some.inj h'
      simp
    | Playing p =>
      rw [hs] at h'
      simp only [] at h'
      cases hmm : p.make_move with
      | none => rw [hmm] at h'; exact absurd h' (by simp)
      | some q =>
        rw [hmm] at h'
        simp only [] at h'
        cases hcw : q.board.check_win with
        | none =>
          rw [hcw] at h'
          simp only [] at h'
          by_cases hfull : q.board.is_full = true
          · rw [if_pos hfull] at h'
            obtain rfl : _ = g' := Option.some.inj h'
            simp
          · rw [if_neg hfull] at h'
            obtain rfl : _ = g' := Option.some.inj h'
            simp
        | some wp =>
          obtain ⟨w, pl⟩ := wp
          rw [hcw] at h'
          simp only [] at h'
          cases pl with
          | X =>
            obtain rfl : _ = g' := Option.some.inj h'
            exact ⟨Nat.le_succ _, le_refl _, fun _ =>
              ⟨rfl, ⟨_, rfl, w, Player.X, rfl, Or.inl ⟨rfl, rfl, rfl⟩⟩⟩⟩
          | O =>
            obtain rfl : _ = g' := Option.some.inj h'
            exact ⟨le_refl _, Nat.le_succ _, fun _ =>
              ⟨rfl, ⟨_, rfl, w, Player.O, rfl, Or.inr ⟨rfl, rfl, rfl⟩⟩⟩⟩

/-- Witness for C7: a cursor move from the fresh game leaves both scores at 0. -/
theorem claim_C7_witness :
    Game.new.score_x ≤ (Game.new.input_left).score_x ∧
    Game.new.score_o ≤ (Game.new.input_left).score_o :=
  ⟨(claim_C7_scores_monotone Game.new Game.new.input_left Input.left rfl).1,
   (claim_C7_scores_monotone Game.new Game.new.input_left Input.left rfl).2.1⟩

/-- C9: no reachable state is the `Borrowed` placeholder, confirm never hits
the `unreachable` branch (it always produces a next state), and every event
dispatched from a reachable state again yields a non-`Borrowed` state. -/
theorem claim_C9_borrowed_unobservable (g : Game) (hr : Reachable g) :
    g.state ≠ State.Borrowed ∧ (g.input_space).isSome = true ∧
    ∀ (i : Input) (g' : Game), g.step i = some g' → g'.state ≠ State.Borrowed := by
  have hgood := reachable_good hr
  refine ⟨?_, ?_, ?_⟩
  · intro hb; rw [hb] at hgood; exact hgood
  · cases hs : g.state with
    | Borrowed => rw [hs] at hgood; exact hgood.elim
    | Done d => unfold Game.input_space; rw [hs]; rfl
    | Playing p =>
      rw [hs] at hgood
      obtain ⟨h9, hw, hf⟩ := hgood
      have hmm : p.make_move = some p ∨ p.make_move = some
          { p with
            board := Board.mk (Function.update p.board.squares ⟨p.cursor_pos, h9⟩ (some p.next)),
            next := p.next.toggle } := by
        unfold Playing.make_move
        rw [dif_pos h9]
        by_cases hocc : (p.board.squares ⟨p.cursor_pos, h9⟩).isSome = true
        · rw [if_pos hocc]; exact Or.inl rfl
        · rw [if_neg hocc]; exact Or.inr rfl
      unfold Game.input_space
      rw [hs]
      simp only []
      rcases hmm with hmm | hmm <;>
        · rw [hmm]
          simp only []
          split
          · split <;> rfl
          · split <;> rfl
  · intro i g' hstep
    have hgood' := good_step hgood hstep
    intro hb
    rw [hb] at hgood'
    exact hgood'

end TicTacToe

namespace TicTacToe

/-- Witness for C9 at the initial game. -/
theorem claim_C9_witness :
    Game.new.state ≠ State.Borrowed ∧ (Game.new.input_space).isSome = true :=
  ⟨(claim_C9_borrowed_unobservable Game.new Reachable.init).1,
   (claim_C9_borrowed_unobservable Game.new Reachable.init).2.1⟩

end TicTacToe
